import Mathlib

/-!
Verification of the OdeToErlang Erlang X staffing engine
(`src/lib/calculations/erlangX.ts`, here `part_006`).

Numbers are modelled as real numbers (`ℝ`).  JavaScript's `Infinity` appears
in exactly one place in the module under study — `calculateVirtualTraffic`
returns `Infinity` for an unstable retrial loop — and is modelled by `none`
in an `Option ℝ` codomain; every consumer of that value in the source is
translated by a `match` whose `none` branch follows the IEEE-754 semantics of
the corresponding JavaScript expression at `+∞` (comments inline).
-/

noncomputable section

/-- Modelled from the spec: the repository imports `calculateTrafficIntensity`
from `erlangC.ts`, whose implementation is not among the provided sources.
Spec §4.1: returns 0 if any input is ≤ 0, otherwise `volume·aht/intervalSeconds`.
The example in `src/CONTRIBUTING.md` and the tests in
`src/lib/calculations/erlangA.test.ts` agree with this contract. -/
def calculateTrafficIntensity (volume aht intervalSeconds : ℝ) : ℝ :=
  if volume ≤ 0 ∨ aht ≤ 0 ∨ intervalSeconds ≤ 0 then 0
  else volume * aht / intervalSeconds

/-- The inner accumulator of the Erlang-C recurrence:
`inv = 1; for k in 1..m: inv = 1 + (k/traffic)·inv`.
`erlangCInv traffic m` is the value of `inv` after the iteration for `k = m`. -/
def erlangCInv (traffic : ℝ) : ℕ → ℝ
  | 0 => 1
  | k + 1 => 1 + ((k + 1 : ℕ) : ℝ) / traffic * erlangCInv traffic k

/-- Modelled from the spec: the repository imports `erlangC` from
`erlangC.ts`, whose implementation is not among the provided sources.
Spec §4.2: returns 0 if `agents ≤ 0` or `traffic ≤ 0`; returns 1.0 if
`agents ≤ traffic`; otherwise the iterative recurrence
`inv = 1; for k in 1..agents-1: inv = 1 + (k/traffic)·inv;
P = 1/(1 + (1 − traffic/agents)·inv)` — transcribed verbatim, including the
final clamp to [0,1] shown in the `src/CONTRIBUTING.md` example.  The guard
order (zero guard before the instability guard) is pinned by the in-repo
tests (`erlangC(0, 10) = 0`, `erlangC(10, 0) = 0`, `erlangC(5, 10) = 1`).
The loop `for (k = 1; k < agents; k++)` performs `⌈agents⌉ - 1` iterations
for the positive `agents` reachable past the guards. -/
def erlangC (agents traffic : ℝ) : ℝ :=
  if agents ≤ 0 ∨ traffic ≤ 0 then 0
  else if agents ≤ traffic then 1
  else
    let inverseProbability := erlangCInv traffic (⌈agents⌉ - 1).toNat
    let pwait := 1 / (1 + (1 - traffic / agents) * inverseProbability)
    min 1 (max 0 pwait)

/-- `calculateRetrialProbability` from `part_006` lines 25–36. -/
def calculateRetrialProbability (waitTime averagePatience : ℝ) : ℝ :=
  let frustrationFactor := min (waitTime / averagePatience) 2
  let baseRetrialRate : ℝ := 0.40
  let maxRetrialRate : ℝ := 0.70
  min (baseRetrialRate + frustrationFactor * 0.15) maxRetrialRate

/-- `calculateVirtualTraffic` from `part_006` lines 47–61.
The source returns `Infinity` when the feedback factor reaches 0.99;
`none` models that `Infinity` return. -/
def calculateVirtualTraffic (trafficIntensity abandonmentRate retrialProbability : ℝ) :
    Option ℝ :=
  let feedbackFactor := abandonmentRate * retrialProbability
  if 0.99 ≤ feedbackFactor then none
  else some (trafficIntensity / (1 - feedbackFactor))

/-- `calculateAbandonmentRateX` from `part_006` lines 74–100.  The source's
default argument `patienceShape = 1.2` is passed explicitly by callers here. -/
def calculateAbandonmentRateX (agents trafficIntensity aht averagePatience patienceShape : ℝ) :
    ℝ :=
  if agents ≤ trafficIntensity then 1
  else
    let pwait := erlangC agents trafficIntensity
    if pwait = 0 then 0
    else
      let avgWaitTime := pwait * aht / (agents - trafficIntensity)
      let patienceRatio := avgWaitTime / averagePatience
      let abandonGivenWait := 1 - Real.exp (-(patienceRatio ^ patienceShape))
      pwait * abandonGivenWait

/-- The average-wait expression of `part_006` line 133:
`(erlangC(agents, virtualTraffic) * aht) / Math.max(agents - virtualTraffic, 0.01)`.
When `virtualTraffic = Infinity` (`none`): `erlangC(agents, ∞) = 1` by the
instability guard and `Math.max(agents - ∞, 0.01) = 0.01`, so the JavaScript
expression evaluates to `1 * aht / 0.01`. -/
def equilibriumAvgWait (agents aht : ℝ) (virtualTraffic : Option ℝ) : ℝ :=
  match virtualTraffic with
  | none => 1 * aht / 0.01
  | some vt => erlangC agents vt * aht / max (agents - vt) 0.01

/-- The abandonment-rate update of the loop body (`part_006` lines 125–130),
with the source's default `patienceShape = 1.2`:
`calculateAbandonmentRateX(agents, ∞, …) = 1` by its instability guard,
which the `none` arm reproduces. -/
def equilibriumNewRate (agents aht averagePatience : ℝ) (virtualTraffic : Option ℝ) : ℝ :=
  match virtualTraffic with
  | none => 1
  | some vt => calculateAbandonmentRateX agents vt aht averagePatience 1.2

/-- The distance used by the loop's convergence test on virtual traffic,
`Math.abs(newVirtualTraffic - virtualTraffic)`: when either side is
`Infinity` (`none`) the JavaScript difference is `NaN` or `±∞` and the
comparison `< 0.001` is false, which the sentinel value 1 reproduces. -/
def optionDist (x y : Option ℝ) : ℝ :=
  match x, y with
  | some a, some b => |a - b|
  | _, _ => 1

/-- The fixed-point loop of `solveEquilibriumAbandonment` (`part_006`
lines 123–152), with the remaining iteration budget as fuel. -/
def equilibriumGo (baseTraffic agents aht averagePatience : ℝ) :
    ℕ → ℝ → Option ℝ → ℝ
  | 0, abandonmentRate, _ => abandonmentRate
  | n + 1, abandonmentRate, virtualTraffic =>
    let newAbandonmentRate := equilibriumNewRate agents aht averagePatience virtualTraffic
    let retrialProb :=
      calculateRetrialProbability (equilibriumAvgWait agents aht virtualTraffic)
        averagePatience
    let newVirtualTraffic :=
      calculateVirtualTraffic baseTraffic newAbandonmentRate retrialProb
    if |newAbandonmentRate - abandonmentRate| < 0.001 ∧
        optionDist newVirtualTraffic virtualTraffic < 0.001
    then newAbandonmentRate
    else equilibriumGo baseTraffic agents aht averagePatience n
      newAbandonmentRate newVirtualTraffic

/-- `solveEquilibriumAbandonment` from `part_006` lines 113–155:
initial guess 5%, initial virtual traffic = base traffic. -/
def solveEquilibriumAbandonment (baseTraffic agents aht averagePatience : ℝ)
    (maxIterations : ℕ) : ℝ :=
  equilibriumGo baseTraffic agents aht averagePatience maxIterations 0.05
    (some baseTraffic)

/-- `calculateServiceLevelX` from `part_006` lines 168–207.  In the `none`
(virtual traffic = `Infinity`) case the JavaScript continuation evaluates, for
a positive threshold, to `1 - 1·e^{+∞} = -∞`, clamped to 0. -/
def calculateServiceLevelX (agents baseTraffic aht targetSeconds averagePatience : ℝ) : ℝ :=
  if agents ≤ 0 ∨ baseTraffic ≤ 0 then 1
  else if agents ≤ baseTraffic then 0
  else
    let abandonmentRate :=
      solveEquilibriumAbandonment baseTraffic agents aht averagePatience 50
    let avgWaitTime := erlangC agents baseTraffic * aht / (agents - baseTraffic)
    let retrialProb := calculateRetrialProbability avgWaitTime averagePatience
    match calculateVirtualTraffic baseTraffic abandonmentRate retrialProb with
    | none => 0
    | some virtualTraffic =>
      let pwait := erlangC agents virtualTraffic
      let exponent := -(agents - virtualTraffic) * (targetSeconds / aht)
      let probWaitExceedsTarget := pwait * Real.exp exponent
      let serviceLevel := 1 - probWaitExceedsTarget
      min (max serviceLevel 0) 1

/-- The linear search loop of `solveAgentsErlangX` (`part_006` lines 237–249):
scan agent counts upward from `agents`, at most `fuel` candidates, returning
the first one whose Erlang X service level meets the target. -/
def erlangXSearch (baseTraffic aht targetSL thresholdSeconds averagePatience : ℝ)
    (agents : ℤ) : ℕ → Option ℤ
  | 0 => none
  | n + 1 =>
    if targetSL ≤
        calculateServiceLevelX (agents : ℝ) baseTraffic aht thresholdSeconds averagePatience
    then some agents
    else erlangXSearch baseTraffic aht targetSL thresholdSeconds averagePatience
      (agents + 1) n

/-- `solveAgentsErlangX` from `part_006` lines 220–252.  The JavaScript loop
`for (agents = minAgents; agents <= maxAgents; agents++)` examines
`maxAgents + 1 - minAgents` candidates (none when `minAgents > maxAgents`). -/
def solveAgentsErlangX (baseTraffic aht targetSL thresholdSeconds maxOccupancy
    averagePatience : ℝ) : Option ℤ :=
  if baseTraffic ≤ 0 ∨ aht ≤ 0 then some 0
  else
    let minAgents : ℤ := ⌈baseTraffic / maxOccupancy⌉
    let maxAgents : ℤ :=
      if baseTraffic < 1 then max 10 ⌈baseTraffic * 3⌉ else ⌈baseTraffic * 3⌉
    erlangXSearch baseTraffic aht targetSL thresholdSeconds averagePatience
      minAgents (maxAgents + 1 - minAgents).toNat

/-- Input record of `calculateErlangXMetrics` (`part_006` lines 268–277). -/
structure ErlangXParams where
  volume : ℝ
  aht : ℝ
  intervalMinutes : ℝ
  targetSLPercent : ℝ
  thresholdSeconds : ℝ
  shrinkagePercent : ℝ
  maxOccupancy : ℝ
  averagePatience : ℝ

/-- `ErlangXMetrics` interface from `part_006` lines 257–266.
`virtualTraffic` is `Option ℝ` because `calculateVirtualTraffic` can return
`Infinity` (modelled `none`). -/
structure ErlangXMetrics where
  serviceLevel : ℝ
  asa : ℝ
  abandonmentRate : ℝ
  expectedAbandonments : ℝ
  retrialProbability : ℝ
  virtualTraffic : Option ℝ
  answeredContacts : ℝ
  requiredAgents : ℤ

/-- `calculateErlangXMetrics` from `part_006` lines 268–330.  The source line
`if (!requiredAgents) return null` is a JavaScript falsy test: it takes the
`null` exit both when the solver returned `null` and when it returned the
number `0`, which the `none`/`some 0` branches below reproduce exactly. -/
def calculateErlangXMetrics (params : ErlangXParams) : Option ErlangXMetrics :=
  let intervalSeconds := params.intervalMinutes * 60
  let baseTraffic := calculateTrafficIntensity params.volume params.aht intervalSeconds
  let requiredAgents :=
    solveAgentsErlangX baseTraffic params.aht (params.targetSLPercent / 100)
      params.thresholdSeconds (params.maxOccupancy / 100) params.averagePatience
  match requiredAgents with
  | none => none
  | some a =>
    if a = 0 then none
    else
      let abandonmentRate :=
        solveEquilibriumAbandonment baseTraffic (a : ℝ) params.aht params.averagePatience 50
      let avgWaitTime :=
        erlangC (a : ℝ) baseTraffic * params.aht / max ((a : ℝ) - baseTraffic) 0.01
      let retrialProb := calculateRetrialProbability avgWaitTime params.averagePatience
      let virtualTraffic := calculateVirtualTraffic baseTraffic abandonmentRate retrialProb
      let serviceLevel :=
        calculateServiceLevelX (a : ℝ) baseTraffic params.aht params.thresholdSeconds
          params.averagePatience
      let expectedAbandonments := params.volume * abandonmentRate
      let answeredContacts := params.volume - expectedAbandonments
      some ⟨serviceLevel, avgWaitTime, abandonmentRate, expectedAbandonments,
        retrialProb, virtualTraffic, answeredContacts, a⟩

/-- The classical factorial-based Erlang-C formula, written from the spec's
words for the refinement claim: `P(wait>0) = (A^c/c!)·(c/(c−A)) /
(Σ_{k=0}^{c-1} A^k/k! + (A^c/c!)·(c/(c−A)))` with `A` = traffic, `c` = agents. -/
def erlangCClassical (c : ℕ) (A : ℝ) : ℝ :=
  let erlangTerm := A ^ c / (Nat.factorial c : ℝ) * ((c : ℝ) / ((c : ℝ) - A))
  erlangTerm / ((∑ k ∈ Finset.range c, A ^ k / (Nat.factorial k : ℝ)) + erlangTerm)

/-- The iterative Erlang-C recurrence with the final combination step's factor
corrected from `(1 − traffic/agents)` to `(agents − traffic)/traffic`; this is
the variant that matches the classical formula (and the published-table values
asserted by the repository's tests, e.g. `erlangC(1, 0.8) ≈ 0.8`). -/
def erlangCIterCorrected (c : ℕ) (A : ℝ) : ℝ :=
  1 / (1 + (((c : ℝ) - A) / A) * erlangCInv A (c - 1))

/-! ### Basic guard and bound lemmas -/

lemma erlangC_of_nonpos {agents traffic : ℝ} (h : agents ≤ 0 ∨ traffic ≤ 0) :
    erlangC agents traffic = 0 := by
  simp only [erlangC]
  rw [if_pos h]

lemma erlangC_of_unstable {agents traffic : ℝ} (ha : 0 < agents) (ht : 0 < traffic)
    (h : agents ≤ traffic) : erlangC agents traffic = 1 := by
  simp only [erlangC]
  rw [if_neg (by push_neg; exact ⟨ha, ht⟩), if_pos h]

lemma erlangC_nonneg (agents traffic : ℝ) : 0 ≤ erlangC agents traffic := by
  simp only [erlangC]
  split
  · exact le_rfl
  split
  · exact zero_le_one
  · exact le_min zero_le_one (le_max_left _ _)

lemma erlangC_le_one (agents traffic : ℝ) : erlangC agents traffic ≤ 1 := by
  simp only [erlangC]
  split
  · exact zero_le_one
  split
  · exact le_rfl
  · exact min_le_left _ _

lemma calculateServiceLevelX_of_nonpos {agents baseTraffic : ℝ}
    (h : agents ≤ 0 ∨ baseTraffic ≤ 0) (aht ts p : ℝ) :
    calculateServiceLevelX agents baseTraffic aht ts p = 1 := by
  simp only [calculateServiceLevelX]
  rw [if_pos h]

lemma calculateServiceLevelX_of_unstable {agents baseTraffic : ℝ} (ha : 0 < agents)
    (hb : 0 < baseTraffic) (h : agents ≤ baseTraffic) (aht ts p : ℝ) :
    calculateServiceLevelX agents baseTraffic aht ts p = 0 := by
  simp only [calculateServiceLevelX]
  rw [if_neg (by push_neg; exact ⟨ha, hb⟩), if_pos h]

lemma calculateVirtualTraffic_of_lt {a r : ℝ} (b : ℝ) (h : a * r < 0.99) :
    calculateVirtualTraffic b a r = some (b / (1 - a * r)) := by
  simp only [calculateVirtualTraffic]
  rw [if_neg (not_le.mpr h)]

lemma calculateVirtualTraffic_of_ge {a r : ℝ} (b : ℝ) (h : 0.99 ≤ a * r) :
    calculateVirtualTraffic b a r = none := by
  simp only [calculateVirtualTraffic]
  rw [if_pos h]

/-! ### Claims C3, C4, C7, C8, C10, C1 -/

/-- Claim C3, counterexample: the claim asserts `calculateServiceLevelX`
returns 0 for every input with `baseTraffic > 0` and `agents ≤ baseTraffic`,
including the shapes with `agents ≤ 0`; but at `agents = 0`,
`baseTraffic = 5` the degenerate-input guard fires first and the function
returns 1, not 0. -/
theorem claim_C3_counterexample :
    calculateServiceLevelX 0 5 180 20 120 = 1 ∧
    calculateServiceLevelX 0 5 180 20 120 ≠ 0 := by
  have h : calculateServiceLevelX 0 5 180 20 120 = 1 :=
    calculateServiceLevelX_of_nonpos (Or.inl le_rfl) _ _ _
  exact ⟨h, by rw [h]; norm_num⟩

/-- Claim C3, amended: for every `baseTraffic > 0` and `0 < agents ≤
baseTraffic`, `calculateServiceLevelX` returns 0 (the shapes with
`agents ≤ 0` instead hit the degenerate-input guard, which returns 1). -/
theorem claim_C3 (agents baseTraffic aht ts p : ℝ) (hb : 0 < baseTraffic)
    (ha : 0 < agents) (h : agents ≤ baseTraffic) :
    calculateServiceLevelX agents baseTraffic aht ts p = 0 :=
  calculateServiceLevelX_of_unstable ha hb h aht ts p

theorem claim_C3_witness :
    (0:ℝ) < 5 ∧ calculateServiceLevelX 1 5 180 20 120 = 0 :=
  ⟨by norm_num, claim_C3 1 5 180 20 120 (by norm_num) (by norm_num) (by norm_num)⟩

/-- Claim C4: `erlangC` returns 0 whenever `agents ≤ 0` or `traffic ≤ 0`,
and returns exactly 1 whenever `traffic > 0` and `0 < agents ≤ traffic`. -/
theorem claim_C4 (agents traffic : ℝ) :
    ((agents ≤ 0 ∨ traffic ≤ 0) → erlangC agents traffic = 0) ∧
    (0 < traffic → 0 < agents → agents ≤ traffic → erlangC agents traffic = 1) :=
  ⟨erlangC_of_nonpos, fun ht ha h => erlangC_of_unstable ha ht h⟩

theorem claim_C4_witness :
    (((-1:ℝ) ≤ 0 ∨ (5:ℝ) ≤ 0) ∧ erlangC (-1) 5 = 0) ∧
    ((0:ℝ) < 3 ∧ erlangC 2 3 = 1) :=
  ⟨⟨Or.inl (by norm_num), (claim_C4 (-1) 5).1 (Or.inl (by norm_num))⟩,
   ⟨by norm_num, (claim_C4 2 3).2 (by norm_num) (by norm_num) (by norm_num)⟩⟩

/-- Claim C7: for `averagePatience > 0`, `calculateRetrialProbability` maps
every `waitTime ≥ 0` into `[0.40, 0.70]`, is non-decreasing in `waitTime`,
and equals 0.70 exactly on saturation `waitTime/averagePatience ≥ 2`. -/
theorem claim_C7 (p : ℝ) (hp : 0 < p) :
    (∀ w, 0 ≤ w → calculateRetrialProbability w p ∈ Set.Icc (0.40 : ℝ) 0.70) ∧
    (∀ w1 w2, 0 ≤ w1 → w1 ≤ w2 →
      calculateRetrialProbability w1 p ≤ calculateRetrialProbability w2 p) ∧
    (∀ w, 2 ≤ w / p → calculateRetrialProbability w p = 0.70) := by
  refine ⟨fun w hw => ?_, fun w1 w2 _ h12 => ?_, fun w h2 => ?_⟩
  · have h0 : (0:ℝ) ≤ min (w / p) 2 := le_min (div_nonneg hw hp.le) (by norm_num)
    simp only [calculateRetrialProbability, Set.mem_Icc]
    constructor
    · exact le_min (by nlinarith) (by norm_num)
    · exact min_le_right _ _
  · simp only [calculateRetrialProbability]
    have hdiv : w1 / p ≤ w2 / p := (div_le_div_iff_of_pos_right hp).mpr h12
    have hmin : min (w1 / p) 2 ≤ min (w2 / p) 2 := min_le_min hdiv le_rfl
    exact min_le_min (by nlinarith) le_rfl
  · simp only [calculateRetrialProbability]
    rw [min_eq_right h2]
    norm_num

theorem claim_C7_witness :
    (0:ℝ) < 1 ∧ calculateRetrialProbability 5 1 ∈ Set.Icc (0.40 : ℝ) 0.70 :=
  ⟨by norm_num, (claim_C7 1 (by norm_num)).1 5 (by norm_num)⟩

/-- Claim C8: `calculateVirtualTraffic` returns
`baseTraffic / (1 - abandonmentRate·retrialProbability)` whenever the
feedback factor is below 0.99, and the `Infinity` sentinel (modelled `none`)
whenever the feedback factor reaches or exceeds 0.99. -/
theorem claim_C8 (b a r : ℝ) :
    (a * r < 0.99 → calculateVirtualTraffic b a r = some (b / (1 - a * r))) ∧
    (0.99 ≤ a * r → calculateVirtualTraffic b a r = none) :=
  ⟨fun h => calculateVirtualTraffic_of_lt b h, fun h => calculateVirtualTraffic_of_ge b h⟩

theorem claim_C8_witness :
    ((1:ℝ) * (1/2) < 0.99 ∧ calculateVirtualTraffic 1 1 (1/2) = some (1 / (1 - 1 * (1/2)))) ∧
    ((0.99:ℝ) ≤ 1 * 1 ∧ calculateVirtualTraffic 1 1 1 = none) :=
  ⟨⟨by norm_num, (claim_C8 1 1 (1/2)).1 (by norm_num)⟩,
   ⟨by norm_num, (claim_C8 1 1 1).2 (by norm_num)⟩⟩

/-- Claim C10: the equilibrium loop's average-wait denominator
`Math.max(agents - virtualTraffic, 0.01)` is clamped to at least 0.01, so the
wait-time expression divides by a positive quantity and is well defined even
when the current virtual traffic meets or exceeds the agent count. -/
theorem claim_C10 (agents aht vt : ℝ) :
    (0.01 : ℝ) ≤ max (agents - vt) 0.01 ∧
    equilibriumAvgWait agents aht (some vt) =
      erlangC agents vt * aht / max (agents - vt) 0.01 ∧
    (agents ≤ vt → max (agents - vt) 0.01 = 0.01) :=
  ⟨le_max_right _ _, rfl, fun h => max_eq_right (by linarith)⟩

theorem claim_C10_witness :
    (1:ℝ) ≤ 2 ∧ max ((1:ℝ) - 2) 0.01 = 0.01 :=
  ⟨by norm_num, (claim_C10 1 3 2).2.2 (by norm_num)⟩

/-! ### Range of the equilibrium abandonment loop (claim C2) -/

lemma calculateAbandonmentRateX_mem {aht p : ℝ} (ha : 0 < aht) (hp : 0 < p)
    (agents traffic shape : ℝ) :
    calculateAbandonmentRateX agents traffic aht p shape ∈ Set.Icc (0:ℝ) 1 := by
  rw [Set.mem_Icc]
  simp only [calculateAbandonmentRateX]
  split
  · exact ⟨zero_le_one, le_rfl⟩
  next hst =>
    split
    · exact ⟨le_rfl, zero_le_one⟩
    · have hP0 := erlangC_nonneg agents traffic
      have hP1 := erlangC_le_one agents traffic
      have hsub : 0 < agents - traffic := by linarith [not_le.mp hst]
      have hratio : 0 ≤ erlangC agents traffic * aht / (agents - traffic) / p :=
        div_nonneg (div_nonneg (mul_nonneg hP0 ha.le) hsub.le) hp.le
      have hx : 0 ≤ (erlangC agents traffic * aht / (agents - traffic) / p) ^ shape :=
        Real.rpow_nonneg hratio shape
      have hE1 : Real.exp
          (-((erlangC agents traffic * aht / (agents - traffic) / p) ^ shape)) ≤ 1 := by
        calc Real.exp (-((erlangC agents traffic * aht / (agents - traffic) / p) ^ shape))
            ≤ Real.exp 0 := Real.exp_le_exp.mpr (by linarith)
          _ = 1 := Real.exp_zero
      have hE0 : (0:ℝ) < Real.exp
          (-((erlangC agents traffic * aht / (agents - traffic) / p) ^ shape)) :=
        Real.exp_pos _
      exact ⟨mul_nonneg hP0 (by linarith), by nlinarith⟩

lemma equilibriumGo_mem {aht p : ℝ} (ha : 0 < aht) (hp : 0 < p) (b ag : ℝ) :
    ∀ (n : ℕ) (a : ℝ) (v : Option ℝ), a ∈ Set.Icc (0:ℝ) 1 →
      equilibriumGo b ag aht p n a v ∈ Set.Icc (0:ℝ) 1 := by
  intro n
  induction n with
  | zero =>
    intro a v hmem
    simpa only [equilibriumGo] using hmem
  | succ n ih =>
    intro a v hmem
    have hnew : ∀ w : Option ℝ, equilibriumNewRate ag aht p w ∈ Set.Icc (0:ℝ) 1 := by
      intro w
      cases w with
      | none => exact ⟨zero_le_one, le_rfl⟩
      | some vt => exact calculateAbandonmentRateX_mem ha hp ag vt 1.2
    simp only [equilibriumGo]
    split
    · exact hnew _
    · exact ih _ _ (hnew _)

/-! ### A concrete run of the equilibrium loop that returns exactly 1 -/

lemma equilibriumGo_succ (b ag aht p : ℝ) (n : ℕ) (a : ℝ) (v : Option ℝ) :
    equilibriumGo b ag aht p (n + 1) a v =
      if |equilibriumNewRate ag aht p v - a| < 0.001 ∧
          optionDist (calculateVirtualTraffic b (equilibriumNewRate ag aht p v)
            (calculateRetrialProbability (equilibriumAvgWait ag aht v) p)) v < 0.001
      then equilibriumNewRate ag aht p v
      else equilibriumGo b ag aht p n (equilibriumNewRate ag aht p v)
        (calculateVirtualTraffic b (equilibriumNewRate ag aht p v)
          (calculateRetrialProbability (equilibriumAvgWait ag aht v) p)) := by
  simp only [equilibriumGo]

lemma erlangC_eval {agents traffic : ℝ} (h0a : 0 < agents) (h0t : 0 < traffic)
    (hst : traffic < agents) :
    erlangC agents traffic = min 1 (max 0
      (1 / (1 + (1 - traffic / agents) * erlangCInv traffic (⌈agents⌉ - 1).toNat))) := by
  simp only [erlangC]
  rw [if_neg (by push_neg; exact ⟨h0a, h0t⟩), if_neg (not_le.mpr hst)]

lemma erlangC_two {t : ℝ} (h0 : 0 < t) (h2 : t < 2) :
    erlangC 2 t = min 1 (max 0 (1 / (1 + (1 - t / 2) * (1 + 1 / t)))) := by
  rw [erlangC_eval (by norm_num) h0 h2]
  have hceil : (⌈(2:ℝ)⌉ - 1).toNat = 1 := by
    rw [show ⌈(2:ℝ)⌉ = 2 from by rw [Int.ceil_eq_iff] <;> norm_num]
    rfl
  rw [hceil, show (1:ℕ) = 0 + 1 from rfl, erlangCInv, erlangCInv]
  norm_num

lemma erlangC_two_19_10 : erlangC 2 (19/10) = 380/409 := by
  rw [erlangC_two (by norm_num) (by norm_num)]
  rw [show (1:ℝ) / (1 + (1 - 19/10 / 2) * (1 + 1 / (19/10))) = 380/409 by norm_num]
  rw [max_eq_right (by norm_num), min_eq_right (by norm_num)]

lemma calcX_trace1 : calculateAbandonmentRateX 2 (19/10) 100 1 1.2
    = 380/409 * (1 - Real.exp (-((380000/409 : ℝ) ^ (1.2:ℝ)))) := by
  simp only [calculateAbandonmentRateX]
  rw [if_neg (by norm_num), erlangC_two_19_10, if_neg (by norm_num : ¬(380/409 : ℝ) = 0)]
  rw [show (380/409 : ℝ) * 100 / (2 - 19/10) / 1 = 380000/409 by norm_num]

lemma retrial_trace1 :
    calculateRetrialProbability (equilibriumAvgWait 2 100 (some (19/10))) 1 = 0.7 := by
  have hw : equilibriumAvgWait 2 100 (some (19/10)) = 380000/409 := by
    simp only [equilibriumAvgWait]
    rw [erlangC_two_19_10, max_eq_left (by norm_num)]
    norm_num
  rw [hw]
  simp only [calculateRetrialProbability]
  rw [min_eq_right (by norm_num)]
  norm_num

lemma trace_exp_le_half :
    Real.exp (-((380000/409 : ℝ) ^ (1.2:ℝ))) ≤ 1/2 := by
  have hr1 : (1:ℝ) ≤ (380000/409 : ℝ) ^ (1.2:ℝ) := by
    calc (1:ℝ) ≤ 380000/409 := by norm_num
      _ = (380000/409 : ℝ) ^ (1:ℝ) := (Real.rpow_one _).symm
      _ ≤ (380000/409 : ℝ) ^ (1.2:ℝ) :=
        Real.rpow_le_rpow_of_exponent_le (by norm_num) (by norm_num)
  have hstep : Real.exp (-((380000/409 : ℝ) ^ (1.2:ℝ))) ≤ Real.exp (-1) :=
    Real.exp_le_exp.mpr (by linarith)
  have hhalf : Real.exp (-1) ≤ 1/2 := by
    rw [Real.exp_neg, inv_eq_one_div]
    have h2 : (2:ℝ) ≤ Real.exp 1 := by
      have := Real.add_one_le_exp (1:ℝ)
      linarith
    exact one_div_le_one_div_of_le (by norm_num) h2
  linarith

lemma traceA0_bounds :
    190/409 ≤ 380/409 * (1 - Real.exp (-((380000/409 : ℝ) ^ (1.2:ℝ)))) ∧
    380/409 * (1 - Real.exp (-((380000/409 : ℝ) ^ (1.2:ℝ)))) ≤ 380/409 := by
  have h1 := trace_exp_le_half
  have h2 := Real.exp_pos (-((380000/409 : ℝ) ^ (1.2:ℝ)))
  constructor <;> nlinarith

lemma calcX_of_unstable {ag t : ℝ} (h : ag ≤ t) (aht p s : ℝ) :
    calculateAbandonmentRateX ag t aht p s = 1 := by
  simp only [calculateAbandonmentRateX]
  rw [if_pos h]

lemma retrial_absorb {V : ℝ} (h0 : 0 < V) (h2 : 2 ≤ V) :
    calculateRetrialProbability (equilibriumAvgWait 2 100 (some V)) 1 = 0.7 := by
  have hw : equilibriumAvgWait 2 100 (some V) = 10000 := by
    simp only [equilibriumAvgWait]
    rw [erlangC_of_unstable (by norm_num) h0 h2, max_eq_right (by linarith)]
    norm_num
  rw [hw]
  simp only [calculateRetrialProbability]
  rw [min_eq_right (by norm_num)]
  norm_num

lemma vt_absorb : calculateVirtualTraffic (19/10) 1 0.7 = some (19/3) := by
  rw [calculateVirtualTraffic_of_lt _ (by norm_num)]
  norm_num

lemma trace_stepC (n : ℕ) :
    equilibriumGo (19/10) 2 100 1 (n + 1) 1 (some (19/3)) = 1 := by
  rw [equilibriumGo_succ]
  simp only [equilibriumNewRate]
  rw [calcX_of_unstable (by norm_num) 100 1 1.2,
    retrial_absorb (by norm_num) (by norm_num), vt_absorb]
  rw [if_pos ⟨by rw [sub_self, abs_zero]; norm_num,
    by simp only [optionDist]; rw [sub_self, abs_zero]; norm_num⟩]

lemma trace_stepB (n : ℕ) (a V : ℝ) (hA : a ≤ 95/100) (hV : 2 < V) :
    equilibriumGo (19/10) 2 100 1 (n + 1 + 1) a (some V) = 1 := by
  have h0V : (0:ℝ) < V := by linarith
  rw [equilibriumGo_succ]
  simp only [equilibriumNewRate]
  rw [calcX_of_unstable hV.le 100 1 1.2, retrial_absorb h0V hV.le, vt_absorb]
  rw [if_neg (by
    rintro ⟨h1, -⟩
    have h2 := (abs_lt.mp h1).2
    linarith)]
  exact trace_stepC n

/-- Claim C2, counterexample: at `baseTraffic = 1.9`, `agents = 2`,
`aht = 100`, `averagePatience = 1` — all of the claim's hypotheses hold —
the loop's virtual traffic grows past the agent count, the abandonment
update saturates at the unstable-queue sentinel 1.0, the iteration reaches
the fixed point `(rate, virtualTraffic) = (1, 19/3)` and the convergence
test accepts it, so `solveEquilibriumAbandonment` returns exactly 1, which
is outside the claimed half-open interval `[0, 1)`. -/
theorem claim_C2_counterexample :
    (0:ℝ) < 19/10 ∧ (19/10 : ℝ) < 2 ∧ (0:ℝ) < 100 ∧ (0:ℝ) < 1 ∧
    solveEquilibriumAbandonment (19/10) 2 100 1 50 = 1 ∧
    ¬ solveEquilibriumAbandonment (19/10) 2 100 1 50 < 1 := by
  have hmain : solveEquilibriumAbandonment (19/10) 2 100 1 50 = 1 := by
    simp only [solveEquilibriumAbandonment]
    rw [show (50:ℕ) = 49 + 1 from rfl, equilibriumGo_succ]
    simp only [equilibriumNewRate]
    rw [calcX_trace1, retrial_trace1]
    have hA0 := traceA0_bounds
    rw [calculateVirtualTraffic_of_lt _ (by nlinarith [hA0.2])]
    rw [if_neg (by
      rintro ⟨h1, -⟩
      have h2 := (abs_lt.mp h1).2
      have h3 := hA0.1
      linarith)]
    rw [show (49:ℕ) = 47 + 1 + 1 from rfl]
    apply trace_stepB
    · linarith [hA0.2]
    · have hden1 : 1 - 380/409 * (1 - Real.exp (-((380000/409 : ℝ) ^ (1.2:ℝ)))) * 0.7
          ≤ 276/409 := by nlinarith [hA0.1]
      have hden0 : (0:ℝ) < 1 - 380/409 * (1 - Real.exp (-((380000/409 : ℝ) ^ (1.2:ℝ)))) * 0.7 := by
        nlinarith [hA0.2]
      rw [lt_div_iff₀ hden0]
      nlinarith
  refine ⟨by norm_num, by norm_num, by norm_num, by norm_num, hmain, by rw [hmain]; norm_num⟩

/-- Claim C2, amended: for every `baseTraffic > 0`, integer `agents` with
`agents > baseTraffic`, `aht > 0` and `averagePatience > 0`,
`solveEquilibriumAbandonment` terminates within its 50-iteration budget and
returns a value in the closed interval `[0, 1]` (the right endpoint 1 is
attained, so the claimed half-open interval `[0, 1)` must be closed). -/
theorem claim_C2 (b aht p : ℝ) (agents : ℤ) (hb : 0 < b) (hag : b < (agents : ℝ))
    (ha : 0 < aht) (hp : 0 < p) :
    solveEquilibriumAbandonment b (agents : ℝ) aht p 50 ∈ Set.Icc (0:ℝ) 1 := by
  have h := equilibriumGo_mem ha hp b (agents : ℝ) 50 0.05 (some b)
    (by rw [Set.mem_Icc]; norm_num)
  simpa only [solveEquilibriumAbandonment] using h

theorem claim_C2_witness :
    (0:ℝ) < 1 ∧ (1:ℝ) < ((2:ℤ) : ℝ) ∧
    solveEquilibriumAbandonment 1 ((2:ℤ) : ℝ) 100 1 50 ∈ Set.Icc (0:ℝ) 1 :=
  ⟨by norm_num, by norm_num,
    claim_C2 1 100 1 2 (by norm_num) (by norm_num) (by norm_num) (by norm_num)⟩

/-! ### The bounded linear agent search (claim C6) -/

lemma erlangXSearch_some_iff (b aht t ts p : ℝ) :
    ∀ (n : ℕ) (a r : ℤ),
      erlangXSearch b aht t ts p a n = some r ↔
        a ≤ r ∧ r < a + (n : ℤ) ∧
        t ≤ calculateServiceLevelX (r : ℝ) b aht ts p ∧
        ∀ a' : ℤ, a ≤ a' → a' < r → calculateServiceLevelX (a' : ℝ) b aht ts p < t := by
  intro n
  induction n with
  | zero =>
    intro a r
    simp only [erlangXSearch, Nat.cast_zero, add_zero]
    constructor
    · intro h
      exact Option.noConfusion h
    · rintro ⟨h1, h2, -⟩
      omega
  | succ n ih =>
    intro a r
    rw [erlangXSearch]
    by_cases h : t ≤ calculateServiceLevelX (a : ℝ) b aht ts p
    · rw [if_pos h]
      constructor
      · intro hs
        have hra : a = r := by injection hs
        subst hra
        refine ⟨le_refl a, by push_cast; omega, h, fun a' h1 h2 => absurd h1 (not_le.mpr h2)⟩
      · rintro ⟨h1, h2, h3, h4⟩
        rcases eq_or_lt_of_le h1 with hra | hlt
        · rw [hra]
        · exact absurd h (not_le.mpr (h4 a le_rfl hlt))
    · rw [if_neg h, ih (a + 1) r]
      constructor
      · rintro ⟨h1, h2, h3, h4⟩
        refine ⟨by omega, by push_cast at h2 ⊢; omega, h3, fun a' ha1 ha2 => ?_⟩
        rcases eq_or_lt_of_le ha1 with haa | hlt
        · rw [← haa]
          exact not_le.mp h
        · exact h4 a' (by omega) ha2
      · rintro ⟨h1, h2, h3, h4⟩
        have hne : r ≠ a := by
          rintro rfl
          exact h h3
        refine ⟨by omega, by push_cast at h2 ⊢; omega, h3,
          fun a' ha1 ha2 => h4 a' (by omega) ha2⟩

lemma erlangXSearch_none_iff (b aht t ts p : ℝ) :
    ∀ (n : ℕ) (a : ℤ),
      erlangXSearch b aht t ts p a n = none ↔
        ∀ a' : ℤ, a ≤ a' → a' < a + (n : ℤ) →
          calculateServiceLevelX (a' : ℝ) b aht ts p < t := by
  intro n
  induction n with
  | zero =>
    intro a
    simp only [erlangXSearch, Nat.cast_zero, add_zero]
    constructor
    · intro _ a' h1 h2
      omega
    · intro _
      trivial
  | succ n ih =>
    intro a
    rw [erlangXSearch]
    by_cases h : t ≤ calculateServiceLevelX (a : ℝ) b aht ts p
    · rw [if_pos h]
      constructor
      · intro hs
        exact Option.noConfusion hs
      · intro hall
        exact absurd h (not_le.mpr (hall a le_rfl (by push_cast; omega)))
    · rw [if_neg h, ih (a + 1)]
      constructor
      · intro hall a' h1 h2
        rcases eq_or_lt_of_le h1 with haa | hlt
        · rw [← haa]
          exact not_le.mp h
        · exact hall a' (by omega) (by push_cast at h2 ⊢; omega)
      · intro hall a' h1 h2
        exact hall a' (by omega) (by push_cast at h2 ⊢; omega)

/-- Claim C6: for `baseTraffic > 0`, `aht > 0` (and an occupancy ceiling in
its spec §3 domain, `maxOccupancy > 0`), `solveAgentsErlangX` returns the
smallest integer in `[⌈baseTraffic/maxOccupancy⌉, maxAgents]` — where
`maxAgents = ⌈baseTraffic·3⌉`, raised to at least 10 when `baseTraffic < 1` —
whose `calculateServiceLevelX` value meets or exceeds `targetSL`, and
returns `null` exactly when no integer in that range meets the target. -/
theorem claim_C6 (b aht t ts mo p : ℝ) (minA maxA : ℤ) (hb : 0 < b) (ha : 0 < aht)
    (hmo : 0 < mo) (hmin : minA = ⌈b / mo⌉)
    (hmax : maxA = if b < 1 then max 10 ⌈b * 3⌉ else ⌈b * 3⌉) :
    (∀ r : ℤ, solveAgentsErlangX b aht t ts mo p = some r ↔
      (minA ≤ r ∧ r ≤ maxA ∧ t ≤ calculateServiceLevelX (r : ℝ) b aht ts p ∧
       ∀ a' : ℤ, minA ≤ a' → a' < r → calculateServiceLevelX (a' : ℝ) b aht ts p < t)) ∧
    (solveAgentsErlangX b aht t ts mo p = none ↔
      ∀ a' : ℤ, minA ≤ a' → a' ≤ maxA → calculateServiceLevelX (a' : ℝ) b aht ts p < t) := by
  have hguard : ¬(b ≤ 0 ∨ aht ≤ 0) := by push_neg; exact ⟨hb, ha⟩
  simp only [solveAgentsErlangX]
  rw [if_neg hguard, ← hmin, ← hmax]
  constructor
  · intro r
    rw [erlangXSearch_some_iff]
    constructor
    · rintro ⟨h1, h2, h3, h4⟩
      exact ⟨h1, by omega, h3, h4⟩
    · rintro ⟨h1, h2, h3, h4⟩
      exact ⟨h1, by omega, h3, h4⟩
  · rw [erlangXSearch_none_iff]
    constructor
    · intro hall a' h1 h2
      exact hall a' h1 (by omega)
    · intro hall a' h1 h2
      exact hall a' h1 (by omega)

theorem claim_C6_witness :
    (0:ℝ) < 10 ∧
    ((solveAgentsErlangX 10 180 0.8 20 0.85 120 = none) ↔
      ∀ a' : ℤ, 12 ≤ a' → a' ≤ 30 → calculateServiceLevelX (a' : ℝ) 10 180 20 120 < 0.8) :=
  ⟨by norm_num,
    (claim_C6 10 180 0.8 20 0.85 120 12 30 (by norm_num) (by norm_num) (by norm_num)
      (by symm; rw [Int.ceil_eq_iff] <;> norm_num)
      (by symm; rw [if_neg (by norm_num), show (10:ℝ) * 3 = 30 by norm_num,
            Int.ceil_eq_iff] <;> norm_num)).2⟩

/-! ### The recurrence against the classical factorial formula (claim C5) -/

lemma erlangCInv_closed (A : ℝ) (hA : A ≠ 0) :
    ∀ m : ℕ, erlangCInv A m =
      (Nat.factorial m : ℝ) / A ^ m *
        ∑ k ∈ Finset.range (m + 1), A ^ k / (Nat.factorial k : ℝ) := by
  intro m
  induction m with
  | zero =>
    rw [erlangCInv]
    simp [Nat.factorial]
  | succ m ih =>
    rw [erlangCInv, ih]
    conv_rhs => rw [Finset.sum_range_succ]
    rw [Nat.factorial_succ, Nat.cast_mul]
    have h1 : (Nat.factorial m : ℝ) ≠ 0 := Nat.cast_ne_zero.mpr (Nat.factorial_ne_zero m)
    have h2 : A ^ m ≠ 0 := pow_ne_zero m hA
    have h3 : ((m + 1 : ℕ) : ℝ) ≠ 0 := Nat.cast_ne_zero.mpr (Nat.succ_ne_zero m)
    field_simp
    ring

/-- Claim C5, counterexample: the recurrence implemented in `erlangC` (final
combination step `P = 1/(1 + (1 − traffic/agents)·inv)`) does not compute the
classical factorial-based Erlang-C value: already at `agents = 1`,
`traffic = 1/2` (where the inner loop is empty and `inv = 1`) the recurrence
yields `2/3` while the classical formula yields `1/2`. -/
theorem claim_C5_counterexample :
    erlangC 1 (1/2) = 2/3 ∧ erlangCClassical 1 (1/2) = 1/2 ∧
    erlangC 1 (1/2) ≠ erlangCClassical 1 (1/2) := by
  have h1 : erlangC 1 (1/2) = 2/3 := by
    rw [erlangC_eval (by norm_num) (by norm_num) (by norm_num)]
    have hceil : (⌈(1:ℝ)⌉ - 1).toNat = 0 := by
      rw [show ⌈(1:ℝ)⌉ = 1 from by rw [Int.ceil_eq_iff] <;> norm_num]
      rfl
    rw [hceil, show erlangCInv (1/2) 0 = 1 from rfl,
      show (1:ℝ) / (1 + (1 - 1/2 / 1) * 1) = 2/3 by norm_num,
      max_eq_right (by norm_num), min_eq_right (by norm_num)]
  have h2 : erlangCClassical 1 (1/2) = 1/2 := by
    simp only [erlangCClassical]
    rw [Finset.sum_range_one]
    norm_num [Nat.factorial]
  exact ⟨h1, h2, by rw [h1, h2]; norm_num⟩

/-- Claim C5, amended: with the final combination step's factor
`(1 − traffic/agents)` replaced by `(agents − traffic)/traffic`, the
iterative recurrence computes exactly the classical factorial-based Erlang-C
value for every integer `agents ≥ 1` and real `traffic` with
`0 < traffic < agents` (this corrected variant also matches the
published-table values the repository's tests assert). -/
theorem claim_C5 (c : ℕ) (A : ℝ) (hc : 1 ≤ c) (h0 : 0 < A) (hlt : A < (c : ℝ)) :
    erlangCIterCorrected c A = erlangCClassical c A := by
  obtain ⟨m, rfl⟩ : ∃ m, c = m + 1 := ⟨c - 1, by omega⟩
  simp only [erlangCIterCorrected, erlangCClassical]
  rw [show (m + 1 - 1 : ℕ) = m from rfl, erlangCInv_closed A h0.ne',
    Nat.factorial_succ, Nat.cast_mul]
  set B := ((m + 1 : ℕ) : ℝ) with hBdef
  set M := (Nat.factorial m : ℝ) with hMdef
  set S := ∑ k ∈ Finset.range (m + 1), A ^ k / (Nat.factorial k : ℝ) with hSdef
  have hS : (0:ℝ) < S := by
    rw [hSdef]
    exact Finset.sum_pos
      (fun i _ => div_pos (pow_pos h0 i) (Nat.cast_pos.mpr (Nat.factorial_pos i)))
      (Finset.nonempty_range_iff.mpr (Nat.succ_ne_zero m))
  have hM : (0:ℝ) < M := Nat.cast_pos.mpr (Nat.factorial_pos m)
  have hB : (0:ℝ) < B := Nat.cast_pos.mpr (Nat.succ_pos m)
  have hApow : A ^ m ≠ 0 := pow_ne_zero m h0.ne'
  have hcA : (0:ℝ) < B - A := by linarith
  have hD : (0:ℝ) < A ^ (m + 1) / (B * M) * (B / (B - A)) :=
    mul_pos (div_pos (pow_pos h0 _) (mul_pos hB hM)) (div_pos hB hcA)
  have hX : (0:ℝ) < 1 + (B - A) / A * (M / A ^ m * S) := by
    have hpos : (0:ℝ) < (B - A) / A * (M / A ^ m * S) :=
      mul_pos (div_pos hcA h0) (mul_pos (div_pos hM (pow_pos h0 m)) hS)
    linarith
  have hkey :
      A ^ (m + 1) / (B * M) * (B / (B - A)) * ((B - A) / A * (M / A ^ m)) = 1 := by
    field_simp
    ring
  rw [div_eq_div_iff hX.ne' (add_pos hS hD).ne']
  linear_combination (-S) * hkey

theorem claim_C5_witness :
    (1:ℕ) ≤ 2 ∧ (0:ℝ) < 1 ∧ (1:ℝ) < ((2:ℕ) : ℝ) ∧
    erlangCIterCorrected 2 1 = erlangCClassical 2 1 :=
  ⟨by norm_num, by norm_num, by norm_num,
    claim_C5 2 1 (by norm_num) (by norm_num) (by norm_num)⟩

/-! ### Monotonicity of the Erlang-C wait probability in agents (claim C9) -/

lemma erlangCInv_pos {t : ℝ} (ht : 0 < t) : ∀ m : ℕ, 0 < erlangCInv t m := by
  intro m
  induction m with
  | zero =>
    rw [erlangCInv]
    exact one_pos
  | succ m ih =>
    rw [erlangCInv]
    have h1 : (0:ℝ) < ((m + 1 : ℕ) : ℝ) := by positivity
    have h2 : (0:ℝ) < ((m + 1 : ℕ) : ℝ) / t := div_pos h1 ht
    nlinarith

lemma erlangC_natCast (n : ℕ) {t : ℝ} (ht : 0 < t) (hlt : t < ((n + 1 : ℕ) : ℝ)) :
    erlangC ((n + 1 : ℕ) : ℝ) t =
      min 1 (max 0 (1 / (1 + (1 - t / ((n + 1 : ℕ) : ℝ)) * erlangCInv t n))) := by
  rw [erlangC_eval (by positivity) ht hlt]
  have hceil : (⌈((n + 1 : ℕ) : ℝ)⌉ - 1).toNat = n := by
    rw [Int.ceil_natCast]
    omega
  rw [hceil]

lemma erlangC_den_mono (n : ℕ) {t : ℝ} (ht : 0 < t) (hlt : t < ((n + 1 : ℕ) : ℝ)) :
    1 + (1 - t / ((n + 1 : ℕ) : ℝ)) * erlangCInv t n ≤
    1 + (1 - t / ((n + 1 + 1 : ℕ) : ℝ)) * erlangCInv t (n + 1) := by
  have hI := erlangCInv_pos ht n
  have hI1 : erlangCInv t n ≤ erlangCInv t (n + 1) := by
    rw [erlangCInv]
    have hgt : (1:ℝ) < ((n + 1 : ℕ) : ℝ) / t := (one_lt_div ht).mpr hlt
    nlinarith
  have hdd : t / ((n + 1 + 1 : ℕ) : ℝ) ≤ t / ((n + 1 : ℕ) : ℝ) := by
    rw [div_le_div_iff (by positivity) (by positivity)]
    push_cast
    nlinarith
  have hf : 1 - t / ((n + 1 : ℕ) : ℝ) ≤ 1 - t / ((n + 1 + 1 : ℕ) : ℝ) := by linarith
  have hf0 : 0 ≤ 1 - t / ((n + 1 : ℕ) : ℝ) := by
    have : t / ((n + 1 : ℕ) : ℝ) < 1 := (div_lt_one (by positivity)).mpr hlt
    linarith
  have := mul_le_mul hf hI1 hI.le (hf0.trans hf)
  linarith

lemma erlangC_succ_le (n : ℕ) {t : ℝ} (ht : 0 < t) :
    erlangC ((n + 1 + 1 : ℕ) : ℝ) t ≤ erlangC ((n + 1 : ℕ) : ℝ) t := by
  by_cases h : ((n + 1 : ℕ) : ℝ) ≤ t
  · rw [erlangC_of_unstable (by positivity) ht h]
    exact erlangC_le_one _ _
  · push_neg at h
    have hlt2 : t < ((n + 1 + 1 : ℕ) : ℝ) := by
      push_cast at h ⊢
      linarith
    rw [erlangC_natCast n ht h, erlangC_natCast (n + 1) ht hlt2]
    refine min_le_min le_rfl (max_le_max le_rfl ?_)
    have hf0 : 0 ≤ 1 - t / ((n + 1 : ℕ) : ℝ) := by
      have : t / ((n + 1 : ℕ) : ℝ) < 1 := (div_lt_one (by positivity)).mpr h
      linarith
    have hd0 : 0 < 1 + (1 - t / ((n + 1 : ℕ) : ℝ)) * erlangCInv t n := by
      have hI := erlangCInv_pos ht n
      nlinarith
    exact one_div_le_one_div_of_le hd0 (erlangC_den_mono n ht h)

/-- Claim C9, counterexample: the claim quantifies over all integer agent
counts; at `agents1 = 0 ≤ 1 = agents2` with `traffic = 2` the zero guard
gives `erlangC(0, 2) = 0` while the instability guard gives
`erlangC(1, 2) = 1`, so the wait probability is not non-increasing once
non-positive agent counts are included. -/
theorem claim_C9_counterexample :
    erlangC 0 2 = 0 ∧ erlangC 1 2 = 1 ∧ ¬ erlangC 1 2 ≤ erlangC 0 2 := by
  have h0 : erlangC 0 2 = 0 := erlangC_of_nonpos (Or.inl le_rfl)
  have h1 : erlangC 1 2 = 1 := erlangC_of_unstable one_pos two_pos (by norm_num)
  exact ⟨h0, h1, by rw [h0, h1]; norm_num⟩

/-- Claim C9, amended: for every fixed `traffic > 0` the Erlang-C waiting
probability is non-increasing over the *positive* integer agent counts:
for all integers `1 ≤ agents1 ≤ agents2`,
`erlangC(agents2, traffic) ≤ erlangC(agents1, traffic)` (the original claim
fails only at the non-positive agent counts, where the zero guard returns 0
below the unstable region's 1). -/
theorem claim_C9 (t : ℝ) (ht : 0 < t) (a1 a2 : ℕ) (h1 : 1 ≤ a1) (h12 : a1 ≤ a2) :
    erlangC (a2 : ℝ) t ≤ erlangC (a1 : ℝ) t := by
  induction a2, h12 using Nat.le_induction with
  | base => exact le_rfl
  | succ a2 ha2 ih =>
    have h2 : 1 ≤ a2 := le_trans h1 ha2
    obtain ⟨m, rfl⟩ : ∃ m, a2 = m + 1 := ⟨a2 - 1, by omega⟩
    exact le_trans (erlangC_succ_le m ht) ih

theorem claim_C9_witness :
    (0:ℝ) < 1 ∧ (1:ℕ) ≤ 2 ∧ erlangC ((2:ℕ) : ℝ) 1 ≤ erlangC ((1:ℕ) : ℝ) 1 :=
  ⟨by norm_num, by norm_num, claim_C9 1 (by norm_num) 1 2 (by norm_num) (by norm_num)⟩

/-- Claim C1: at the 'no load' input `volume = 0` the agent solver correctly
returns the number 0, but `calculateErlangXMetrics` returns `null` for the
very same input — the falsy test `if (!requiredAgents) return null` collapses
the 0-agents 'no load' outcome into `null`, so the claimed null/zero
separation fails in the Erlang X pipeline. -/
theorem claim_C1 :
    calculateErlangXMetrics ⟨0, 180, 30, 80, 20, 0, 85, 120⟩ = none ∧
    solveAgentsErlangX (calculateTrafficIntensity 0 180 (30 * 60)) 180 (80 / 100) 20
      (85 / 100) 120 = some 0 := by
  have hti : calculateTrafficIntensity 0 180 (30 * 60) = 0 := by
    simp only [calculateTrafficIntensity]
    rw [if_pos (Or.inl le_rfl)]
  have hsolve : solveAgentsErlangX 0 180 (80 / 100) 20 (85 / 100) 120 = some 0 := by
    simp only [solveAgentsErlangX]
    rw [if_pos (Or.inl le_rfl)]
  refine ⟨?_, by rw [hti]; exact hsolve⟩
  simp only [calculateErlangXMetrics, hti, hsolve]
  rw [if_pos trivial]

end
